import Mathlib

/-!
Shallow embedding of ve.dm.MWTemplateSpecModel
(src/modules/ve-mw/dm/models/ve.dm.MWTemplateSpecModel.js).

Modelling choices, in one place:

* JavaScript objects used as string-keyed dictionaries are modelled as
  association lists (List (String × _)) whose textual order is the key
  insertion order; obj[k] = v updates the existing pair in place or
  appends a new one, exactly as JS key insertion order behaves.
* The spec model stores parameter-spec OBJECTS by reference, and the
  alias wiring (this.params[alias] = param) shares one object between
  several keys.  To keep that observable, parameter specs live in an
  explicit heap (List ParamSpec) and this.params maps names to heap
  indices (Ref).  Likewise this.canonicalOrder holds an array reference
  and getCanonicalParameterOrder returns a fresh copy via slice(), so
  string arrays live in a second heap (arrays) with a reference
  canonicalOrderRef.
* JS undefined vs null vs string for data.description is three-valued
  (DescriptionData).  For optional payload fields, none models an absent
  (undefined) key: jQuery-style ve.extendObject(true, target, source)
  copies every source field that is not undefined, and deep-merges an
  array field index-wise (source entries win, surplus target entries
  survive), which indexMerge reproduces.
* Localised i18n value objects are out of scope: descriptions and labels
  are plain strings, so OO.ui.getLocalValue is the identity on them.
* sets and maps payloads are carried around opaquely (atoms), since the
  model never inspects them.
* The live invocation (this.template.getParameters()) is code of the
  repository outside this file; modelled from the spec as the list of
  observed parameter names, kept in the state as templateParams.
* Methods that would throw a TypeError on an unknown parameter name
  (property access on undefined) return none.
-/

namespace VeDm

/-- TemplateData "deprecated" field: a boolean or an explanatory string. -/
inductive Deprecated where
  | bool (b : Bool)
  | str (s : String)
  deriving DecidableEq, Repr

/-- One parameter-spec object, as built by getDefaultParameterSpec and
mutated by ve.extendObject.  Fields absent from the default object
(autovalue, example, suggestedvalues) are Options. -/
structure ParamSpec where
  label : String
  description : Option String
  default : String
  type : String
  aliases : List String
  name : String
  required : Bool
  suggested : Bool
  deprecated : Deprecated
  autovalue : Option String
  exampleVal : Option String
  suggestedvalues : Option (List String)
  deriving DecidableEq, Repr

/-- ve.dm.MWTemplateSpecModel.prototype.getDefaultParameterSpec. -/
def getDefaultParameterSpec (name : String) : ParamSpec :=
  { label := name
    description := none
    default := ""
    type := "string"
    aliases := []
    name := name
    required := false
    suggested := false
    deprecated := Deprecated.bool false
    autovalue := none
    exampleVal := none
    suggestedvalues := none }

/-- One entry of data.params in a TemplateData payload.  Every field is
optional; none is an absent (undefined) key, which ve.extendObject skips.
A present description may itself be null (some none).  TemplateData param
objects carry no "name" member, so extendObject never touches name. -/
structure ParamData where
  label : Option String
  description : Option (Option String)
  default : Option String
  type : Option String
  aliases : Option (List String)
  required : Option Bool
  suggested : Option Bool
  deprecated : Option Deprecated
  autovalue : Option String
  exampleVal : Option String
  suggestedvalues : Option (List String)
  deriving DecidableEq, Repr

def emptyParamData : ParamData :=
  { label := none, description := none, default := none, type := none
    aliases := none, required := none, suggested := none, deprecated := none
    autovalue := none, exampleVal := none, suggestedvalues := none }

/-- data.description in a payload: absent (undefined), null, or a string. -/
inductive DescriptionData where
  | missing
  | null
  | str (s : String)
  deriving DecidableEq, Repr

/-- A TemplateData payload as passed to extend: description, paramOrder,
params, sets, maps, each possibly absent.  Set descriptors and maps are
atoms (the model never looks inside them). -/
structure SpecData where
  description : DescriptionData
  paramOrder : Option (List String)
  params : Option (List (String × ParamData))
  sets : Option (List String)
  maps : Option (List (String × String))
  deriving DecidableEq, Repr

def emptyData : SpecData :=
  { description := DescriptionData.missing, paramOrder := none
    params := none, sets := none, maps := none }

/-- Heap reference (index into a heap list). -/
abbrev Ref := Nat

/-- State of one ve.dm.MWTemplateSpecModel instance.  params maps names
(canonical names and aliases) to references into heap; canonicalOrderRef
points into arrays at the array object currently held by
this.canonicalOrder. -/
structure SpecState where
  templateParams : List String
  params : List (String × Ref)
  heap : List ParamSpec
  canonicalOrderRef : Ref
  arrays : List (List String)
  description : Option String
  sets : Option (List String)
  maps : Option (List (String × String))
  deriving DecidableEq, Repr

/-- JS dictionary lookup: obj[k], none when the key is absent. -/
def alookup (l : List (String × Ref)) (k : String) : Option Ref :=
  match l with
  | [] => none
  | (k2, v) :: rest => if k2 = k then some v else alookup rest k

/-- JS dictionary write obj[k] = v: update in place (keeping the key's
position) or append a fresh key. -/
def aset (l : List (String × Ref)) (k : String) (v : Ref) : List (String × Ref) :=
  match l with
  | [] => [(k, v)]
  | (k2, v2) :: rest => if k2 = k then (k2, v) :: rest else (k2, v2) :: aset rest k v

/-- Dereference a parameter-spec heap cell. -/
def readHeap (st : SpecState) (r : Ref) : ParamSpec :=
  st.heap.getD r (getDefaultParameterSpec "")

/-- jQuery deep extend of an array field: source entries overwrite the
target index-wise, surplus target entries survive. -/
def indexMerge (old : List String) (upd : List String) : List String :=
  upd ++ old.drop upd.length

/-- ve.extendObject( true, target, source ) restricted to the fields a
TemplateData param object can carry: every defined source field
overwrites the target field (null included), arrays merge index-wise,
and name is untouched because payload param objects have no name. -/
def extendObject (t : ParamSpec) (d : ParamData) : ParamSpec :=
  { label := d.label.getD t.label
    description := d.description.getD t.description
    default := d.default.getD t.default
    type := d.type.getD t.type
    aliases := match d.aliases with
      | some a => indexMerge t.aliases a
      | none => t.aliases
    name := t.name
    required := d.required.getD t.required
    suggested := d.suggested.getD t.suggested
    deprecated := d.deprecated.getD t.deprecated
    autovalue := match d.autovalue with | some v => some v | none => t.autovalue
    exampleVal := match d.exampleVal with | some v => some v | none => t.exampleVal
    suggestedvalues := match d.suggestedvalues with | some v => some v | none => t.suggestedvalues }

/-- The alias wiring loop inside extend: for each alias name, point the
params dictionary at the (shared) heap cell r. -/
def addAliases (s : SpecState) (r : Ref) (as2 : List String) : SpecState :=
  as2.foldl (fun s2 a => { s2 with params := aset s2.params a r }) s

/-- One iteration of the for-in loop over data.params in extend:
pre-fill a default spec when the key is unknown, deep-extend the (shared)
spec object in place, then register every alias of the merged object. -/
def extendOne (s : SpecState) (kv : String × ParamData) : SpecState :=
  let s1 := if alookup s.params kv.1 = none then
      { s with params := aset s.params kv.1 s.heap.length
               heap := s.heap ++ [getDefaultParameterSpec kv.1] }
    else s
  let r := (alookup s1.params kv.1).getD 0
  let merged := extendObject (readHeap s1 r) kv.2
  let s2 := { s1 with heap := s1.heap.set r merged }
  addAliases s2 r merged.aliases

/-- Lines 70-72 of extend: if data.description is not null it is
assigned, so an absent (undefined) description is assigned as undefined. -/
def descStep (st : SpecState) (d : SpecData) : SpecState :=
  match d.description with
  | DescriptionData.null => st
  | DescriptionData.missing => { st with description := none }
  | DescriptionData.str s => { st with description := some s }

/-- Lines 73-93 of extend: when data.params is set, this.canonicalOrder
is assigned a fresh array (paramOrder when it is an array, else the key
order of data.params) and the for-in loop over data.params runs. -/
def paramsStep (st : SpecState) (d : SpecData) : SpecState :=
  match d.params with
  | none => st
  | some ps =>
    let order : List String := match d.paramOrder with
      | some o => o
      | none => ps.map Prod.fst
    ps.foldl extendOne
      { st with canonicalOrderRef := st.arrays.length
                arrays := st.arrays ++ [order] }

/-- Line 94 of extend: this.sets = data.sets, unconditionally. -/
def setsStep (st : SpecState) (d : SpecData) : SpecState :=
  { st with sets := d.sets }

/-- Lines 95-97 of extend: maps is assigned only when present. -/
def mapsStep (st : SpecState) (d : SpecData) : SpecState :=
  match d.maps with
  | some m => { st with maps := some m }
  | none => st

/-- ve.dm.MWTemplateSpecModel.prototype.extend, as the four statement
groups of the source in order. -/
def extend (st : SpecState) (d : SpecData) : SpecState :=
  mapsStep (setsStep (paramsStep (descStep st d) d) d) d

/-- One iteration of the loop in fillFromTemplate: the key must be
truthy (non-empty) and still unknown. -/
def fillOne (s : SpecState) (key : String) : SpecState :=
  if key ≠ "" ∧ alookup s.params key = none then
    { s with params := aset s.params key s.heap.length
             heap := s.heap ++ [getDefaultParameterSpec key] }
  else s

/-- ve.dm.MWTemplateSpecModel.prototype.fillFromTemplate. -/
def fillFromTemplate (st : SpecState) : SpecState :=
  st.templateParams.foldl fillOne st

/-- The constructor: empty params dictionary, canonicalOrder pointing at
a fresh empty array, then fillFromTemplate.  Modelled from the spec:
template.getParameters() (ve.dm.MWTemplateModel, not part of this
development) is abstracted as the list of observed parameter names. -/
def newSpecModel (templateParams : List String) : SpecState :=
  fillFromTemplate
    { templateParams := templateParams, params := [], heap := []
      canonicalOrderRef := 0, arrays := [[]], description := none
      sets := none, maps := none }

/-- Contents of the array object currently referenced by
this.canonicalOrder. -/
def canonicalOrderList (st : SpecState) : List String :=
  st.arrays.getD st.canonicalOrderRef []

/-- ve.dm.MWTemplateSpecModel.prototype.getCanonicalParameterOrder:
this.canonicalOrder.slice() allocates a fresh array with the same
contents and returns it; the returned Ref is the fresh array. -/
def getCanonicalParameterOrder (st : SpecState) : SpecState × Ref :=
  ({ st with arrays := st.arrays ++ [canonicalOrderList st] }, st.arrays.length)

/-- Read an array object of the array heap. -/
def readArr (st : SpecState) (r : Ref) : List String :=
  st.arrays.getD r []

/-- A caller mutating an array object it holds a reference to. -/
def writeArr (st : SpecState) (r : Ref) (v : List String) : SpecState :=
  { st with arrays := st.arrays.set r v }

/-- ve.dm.MWTemplateSpecModel.prototype.isKnownParameterOrAlias. -/
def isKnownParameterOrAlias (st : SpecState) (name : String) : Bool :=
  (alookup st.params name).isSome

/-- ve.dm.MWTemplateSpecModel.prototype.isParameterAlias. -/
def isParameterAlias (st : SpecState) (name : String) : Bool :=
  match alookup st.params name with
  | some r => decide ((readHeap st r).name ≠ name)
  | none => false

/-- ve.dm.MWTemplateSpecModel.prototype.getPrimaryParameterName;
none models the TypeError on an unknown name. -/
def getPrimaryParameterName (st : SpecState) (name : String) : Option String :=
  (alookup st.params name).map (fun r => (readHeap st r).name)

/-- ve.dm.MWTemplateSpecModel.prototype.getParameterLabel:
this.params[name].label || name (empty string is falsy). -/
def getParameterLabel (st : SpecState) (name : String) : Option String :=
  (alookup st.params name).map (fun r =>
    if (readHeap st r).label = "" then name else (readHeap st r).label)

/-- ve.dm.MWTemplateSpecModel.prototype.isParameterRequired. -/
def isParameterRequired (st : SpecState) (name : String) : Option Bool :=
  (alookup st.params name).map (fun r => (readHeap st r).required)

/-- ve.dm.MWTemplateSpecModel.prototype.isParameterSuggested. -/
def isParameterSuggested (st : SpecState) (name : String) : Option Bool :=
  (alookup st.params name).map (fun r => (readHeap st r).suggested)

/-- ve.dm.MWTemplateSpecModel.prototype.isParameterDeprecated:
deprecated !== false. -/
def isParameterDeprecated (st : SpecState) (name : String) : Option Bool :=
  (alookup st.params name).map (fun r =>
    match (readHeap st r).deprecated with
    | Deprecated.bool false => false
    | _ => true)

/-- ve.dm.MWTemplateSpecModel.prototype.getParameterAliases. -/
def getParameterAliases (st : SpecState) (name : String) : Option (List String) :=
  (alookup st.params name).map (fun r => (readHeap st r).aliases)

/-- ve.dm.MWTemplateSpecModel.prototype.getParameterDefaultValue:
param ? param.default : empty string. -/
def getParameterDefaultValue (st : SpecState) (name : String) : String :=
  match alookup st.params name with
  | some r => (readHeap st r).default
  | none => ""

/-- ve.dm.MWTemplateSpecModel.prototype.getParameterAutoValue:
param ? param.autovalue : empty string; the autovalue field itself may be
undefined (none). -/
def getParameterAutoValue (st : SpecState) (name : String) : Option String :=
  match alookup st.params name with
  | some r => (readHeap st r).autovalue
  | none => some ""

/-- ve.dm.MWTemplateSpecModel.prototype.getParameterNames: iterate the
keys of this.params and keep those whose entry names them as primary. -/
def getParameterNames (st : SpecState) : List String :=
  (st.params.map Prod.fst).filter (fun n =>
    match alookup st.params n with
    | some r => decide ((readHeap st r).name = n)
    | none => false)

/-- ve.dm.MWTemplateSpecModel.prototype.getParameterSets: sets or []. -/
def getParameterSets (st : SpecState) : List String :=
  st.sets.getD []

/-- ve.dm.MWTemplateSpecModel.prototype.getMaps: maps or empty object. -/
def getMaps (st : SpecState) : List (String × String) :=
  st.maps.getD []

/-- ve.dm.MWTemplateSpecModel.prototype.getDescription:
this.description || null (empty string is falsy). -/
def getDescription (st : SpecState) : Option String :=
  match st.description with
  | some s => if s = "" then none else some s
  | none => none

/-- Well-formedness of a model state: the params dictionary has distinct
keys (JS object keys are unique) and only valid references, and the
canonical-order reference is valid.  Established by the constructor and
preserved by every operation. -/
def WFState (st : SpecState) : Prop :=
  (st.params.map Prod.fst).Nodup ∧
  (∀ kv ∈ st.params, kv.2 < st.heap.length) ∧
  st.canonicalOrderRef < st.arrays.length

instance (st : SpecState) : Decidable (WFState st) := by
  unfold WFState
  infer_instance

/-- The spec object extendObject merges into, for a given payload key:
a fresh default when the key is unknown, else the existing (possibly
shared) object. -/
def extendBase (s : SpecState) (k : String) : ParamSpec :=
  match alookup s.params k with
  | none => getDefaultParameterSpec k
  | some r0 => readHeap s r0

/-! ### Basic lemmas about the JS dictionary operations -/

theorem alookup_aset_self (l : List (String × Ref)) (k : String) (v : Ref) :
    alookup (aset l k v) k = some v := by
  induction l with
  | nil => simp [aset, alookup]
  | cons kv rest ih =>
    by_cases h : kv.1 = k
    · simp [aset, alookup, h]
    · simp [aset, alookup, h, ih]

theorem alookup_aset_ne (l : List (String × Ref)) (k : String) (v : Ref)
    (n : String) (h : n ≠ k) : alookup (aset l k v) n = alookup l n := by
  induction l with
  | nil =>
    simp only [aset, alookup]
    rw [if_neg (fun hh => h hh.symm)]
  | cons kv rest ih =>
    by_cases hk : kv.1 = k
    · subst hk
      have hne : ¬ kv.1 = n := fun hh => h hh.symm
      simp [aset, alookup, hne]
    · simp [aset, alookup, hk, ih]

theorem alookup_mem (l : List (String × Ref)) (n : String) (r : Ref)
    (h : alookup l n = some r) : (n, r) ∈ l := by
  induction l with
  | nil => simp [alookup] at h
  | cons kv rest ih =>
    by_cases hk : kv.1 = n
    · simp [alookup, hk] at h
      have h2 : kv = (n, r) := by
        obtain ⟨a, b⟩ := kv
        simp at hk h
        simp [hk, h]
      rw [h2]
      exact List.mem_cons_self _ _
    · simp [alookup, hk] at h
      exact List.mem_cons_of_mem kv (ih h)

theorem mem_keys_of_alookup (l : List (String × Ref)) (n : String) (r : Ref)
    (h : alookup l n = some r) : n ∈ l.map Prod.fst := by
  have := alookup_mem l n r h
  exact List.mem_map_of_mem Prod.fst this

theorem isSome_of_alookup (l : List (String × Ref)) (n : String) (r : Ref)
    (h : alookup l n = some r) : (alookup l n).isSome := by
  rw [h]
  rfl

/-! ### getD helpers -/

theorem getD_concat {α : Type} (l : List α) (a d : α) :
    (l ++ [a]).getD l.length d = a := by
  rw [List.getD_append_right _ _ _ _ (Nat.le_refl _)]
  simp

theorem getD_set_ne {α : Type} (l : List α) (i j : Nat) (v d : α) (h : i ≠ j) :
    (l.set i v).getD j d = l.getD j d := by
  simp [List.getD_eq_getD_get?, List.getElem?_set_ne h]

theorem getD_set_self {α : Type} (l : List α) (i : Nat) (v d : α)
    (h : i < l.length) : (l.set i v).getD i d = v := by
  rw [List.getD_eq_getElem _ _ (by simpa using h)]
  simp [List.getElem_set_self]

/-! ### addAliases lemmas -/

@[simp] theorem addAliases_nil (s : SpecState) (r : Ref) :
    addAliases s r [] = s := rfl

@[simp] theorem addAliases_cons (s : SpecState) (r : Ref) (a : String)
    (t : List String) :
    addAliases s r (a :: t) = addAliases { s with params := aset s.params a r } r t := rfl

theorem addAliases_heap (r : Ref) (as2 : List String) : ∀ s : SpecState,
    (addAliases s r as2).heap = s.heap := by
  induction as2 with
  | nil => intro s; rfl
  | cons a t ih => intro s; simp [ih]

theorem addAliases_fields (r : Ref) (as2 : List String) : ∀ s : SpecState,
    (addAliases s r as2).heap = s.heap ∧
    (addAliases s r as2).arrays = s.arrays ∧
    (addAliases s r as2).canonicalOrderRef = s.canonicalOrderRef ∧
    (addAliases s r as2).description = s.description ∧
    (addAliases s r as2).sets = s.sets ∧
    (addAliases s r as2).maps = s.maps ∧
    (addAliases s r as2).templateParams = s.templateParams := by
  induction as2 with
  | nil => intro s; exact ⟨rfl, rfl, rfl, rfl, rfl, rfl, rfl⟩
  | cons a t ih => intro s; simpa using ih { s with params := aset s.params a r }

theorem alookup_addAliases (r : Ref) (as2 : List String) : ∀ (s : SpecState)
    (n : String), (n ∈ as2 ∨ alookup s.params n = some r) →
    alookup (addAliases s r as2).params n = some r := by
  induction as2 with
  | nil =>
    intro s n h
    rcases h with h | h
    · simp at h
    · simpa using h
  | cons a t ih =>
    intro s n h
    rw [addAliases_cons]
    apply ih
    by_cases hn : n = a
    · subst hn
      right
      exact alookup_aset_self s.params n r
    · rcases h with h | h
      · rcases List.mem_cons.mp h with h | h
        · exact absurd h hn
        · exact Or.inl h
      · right
        rw [alookup_aset_ne s.params a r n hn]
        exact h

/-! ### fillOne / fillFromTemplate lemmas -/

theorem fillOne_fields (s : SpecState) (k : String) :
    (fillOne s k).templateParams = s.templateParams ∧
    (fillOne s k).arrays = s.arrays ∧
    (fillOne s k).canonicalOrderRef = s.canonicalOrderRef ∧
    (fillOne s k).description = s.description ∧
    (fillOne s k).sets = s.sets ∧
    (fillOne s k).maps = s.maps := by
  unfold fillOne
  split
  · exact ⟨rfl, rfl, rfl, rfl, rfl, rfl⟩
  · exact ⟨rfl, rfl, rfl, rfl, rfl, rfl⟩

theorem fillOne_lookup_mono (s : SpecState) (k n : String) (r : Ref)
    (h : alookup s.params n = some r) :
    alookup (fillOne s k).params n = some r := by
  unfold fillOne
  split
  · rename_i hc
    have hnk : n ≠ k := by
      intro he
      rw [he, hc.2] at h
      exact Option.noConfusion h
    simpa [alookup_aset_ne s.params k s.heap.length n hnk] using h
  · exact h

theorem fillOne_isSome_mono (s : SpecState) (k n : String)
    (h : (alookup s.params n).isSome) :
    (alookup (fillOne s k).params n).isSome := by
  obtain ⟨r, hr⟩ := Option.isSome_iff_exists.mp h
  exact isSome_of_alookup _ _ _ (fillOne_lookup_mono s k n r hr)

theorem fillOne_of_present (s : SpecState) (k : String)
    (h : k = "" ∨ (alookup s.params k).isSome) : fillOne s k = s := by
  unfold fillOne
  rw [if_neg]
  rintro ⟨h1, h2⟩
  rcases h with h | h
  · exact h1 h
  · rw [h2] at h
    simp at h

theorem fillOne_isSome_self (s : SpecState) (k : String) (hk : k ≠ "") :
    (alookup (fillOne s k).params k).isSome := by
  unfold fillOne
  split
  · simp [alookup_aset_self]
  · rename_i hc
    rw [Classical.not_and_iff_or_not_not] at hc
    rcases hc with hc | hc
    · exact absurd hk (by simpa using hc)
    · exact Option.isSome_iff_ne_none.mpr hc

theorem fillOne_heap_le (s : SpecState) (k : String) :
    s.heap.length ≤ (fillOne s k).heap.length := by
  unfold fillOne
  split
  · simp
  · exact Nat.le_refl _

theorem fillOne_heap_getD (s : SpecState) (k : String) (r : Ref)
    (p : ParamSpec) (h : r < s.heap.length) :
    (fillOne s k).heap.getD r p = s.heap.getD r p := by
  unfold fillOne
  split
  · exact List.getD_append _ _ _ _ h
  · rfl

theorem foldl_fillOne_templateParams (L : List String) : ∀ s : SpecState,
    (L.foldl fillOne s).templateParams = s.templateParams := by
  induction L with
  | nil => intro s; rfl
  | cons k t ih =>
    intro s
    rw [List.foldl_cons, ih, (fillOne_fields s k).1]

theorem foldl_fillOne_lookup_mono (L : List String) : ∀ (s : SpecState)
    (n : String) (r : Ref), alookup s.params n = some r →
    alookup (L.foldl fillOne s).params n = some r := by
  induction L with
  | nil => intro s n r h; exact h
  | cons k t ih =>
    intro s n r h
    exact ih (fillOne s k) n r (fillOne_lookup_mono s k n r h)

theorem foldl_fillOne_isSome_mono (L : List String) (s : SpecState)
    (n : String) (h : (alookup s.params n).isSome) :
    (alookup (L.foldl fillOne s).params n).isSome := by
  obtain ⟨r, hr⟩ := Option.isSome_iff_exists.mp h
  exact isSome_of_alookup _ _ _ (foldl_fillOne_lookup_mono L s n r hr)

theorem foldl_fillOne_present (L : List String) : ∀ (s : SpecState)
    (k : String), k ∈ L → k ≠ "" →
    (alookup (L.foldl fillOne s).params k).isSome := by
  induction L with
  | nil => intro s k hk; simp at hk
  | cons a t ih =>
    intro s k hk hne
    rcases List.mem_cons.mp hk with hk | hk
    · subst hk
      exact foldl_fillOne_isSome_mono t (fillOne s k) k (fillOne_isSome_self s k hne)
    · exact ih (fillOne s a) k hk hne

theorem foldl_fillOne_heap_le (L : List String) : ∀ s : SpecState,
    s.heap.length ≤ (L.foldl fillOne s).heap.length := by
  induction L with
  | nil => intro s; exact Nat.le_refl _
  | cons k t ih =>
    intro s
    exact Nat.le_trans (fillOne_heap_le s k) (ih (fillOne s k))

theorem foldl_fillOne_heap_getD (L : List String) : ∀ (s : SpecState)
    (r : Ref) (p : ParamSpec), r < s.heap.length →
    (L.foldl fillOne s).heap.getD r p = s.heap.getD r p := by
  induction L with
  | nil => intro s r p _; rfl
  | cons k t ih =>
    intro s r p h
    rw [List.foldl_cons, ih (fillOne s k) r p (Nat.lt_of_lt_of_le h (fillOne_heap_le s k)),
      fillOne_heap_getD s k r p h]

theorem foldl_fillOne_id (L : List String) : ∀ s : SpecState,
    (∀ k ∈ L, k = "" ∨ (alookup s.params k).isSome) → L.foldl fillOne s = s := by
  induction L with
  | nil => intro s _; rfl
  | cons a t ih =>
    intro s h
    rw [List.foldl_cons, fillOne_of_present s a (h a (List.mem_cons_self a t)),
      ih s (fun k hk => h k (List.mem_cons_of_mem a hk))]

/-! ### extend stage lemmas -/

theorem descStep_fields (st : SpecState) (d : SpecData) :
    (descStep st d).params = st.params ∧
    (descStep st d).heap = st.heap ∧
    (descStep st d).arrays = st.arrays ∧
    (descStep st d).canonicalOrderRef = st.canonicalOrderRef ∧
    (descStep st d).sets = st.sets ∧
    (descStep st d).maps = st.maps ∧
    (descStep st d).templateParams = st.templateParams := by
  unfold descStep
  cases d.description <;> exact ⟨rfl, rfl, rfl, rfl, rfl, rfl, rfl⟩

theorem descStep_description (st : SpecState) (d : SpecData) :
    (descStep st d).description = (match d.description with
      | DescriptionData.null => st.description
      | DescriptionData.missing => none
      | DescriptionData.str s => some s) := by
  unfold descStep
  cases d.description <;> rfl

theorem mapsStep_fields (st : SpecState) (d : SpecData) :
    (mapsStep st d).params = st.params ∧
    (mapsStep st d).heap = st.heap ∧
    (mapsStep st d).arrays = st.arrays ∧
    (mapsStep st d).canonicalOrderRef = st.canonicalOrderRef ∧
    (mapsStep st d).sets = st.sets ∧
    (mapsStep st d).description = st.description ∧
    (mapsStep st d).templateParams = st.templateParams := by
  unfold mapsStep
  cases d.maps <;> exact ⟨rfl, rfl, rfl, rfl, rfl, rfl, rfl⟩

theorem extendOne_fields (s : SpecState) (kv : String × ParamData) :
    (extendOne s kv).arrays = s.arrays ∧
    (extendOne s kv).canonicalOrderRef = s.canonicalOrderRef ∧
    (extendOne s kv).description = s.description ∧
    (extendOne s kv).sets = s.sets ∧
    (extendOne s kv).maps = s.maps ∧
    (extendOne s kv).templateParams = s.templateParams := by
  simp only [extendOne]
  refine ⟨?_, ?_, ?_, ?_, ?_, ?_⟩ <;>
    · first
      | (rw [(addAliases_fields _ _ _).2.1]; split <;> rfl)
      | (rw [(addAliases_fields _ _ _).2.2.1]; split <;> rfl)
      | (rw [(addAliases_fields _ _ _).2.2.2.1]; split <;> rfl)
      | (rw [(addAliases_fields _ _ _).2.2.2.2.1]; split <;> rfl)
      | (rw [(addAliases_fields _ _ _).2.2.2.2.2.1]; split <;> rfl)
      | (rw [(addAliases_fields _ _ _).2.2.2.2.2.2]; split <;> rfl)

theorem foldl_extendOne_fields (ps : List (String × ParamData)) :
    ∀ s : SpecState,
    (ps.foldl extendOne s).arrays = s.arrays ∧
    (ps.foldl extendOne s).canonicalOrderRef = s.canonicalOrderRef ∧
    (ps.foldl extendOne s).description = s.description ∧
    (ps.foldl extendOne s).sets = s.sets ∧
    (ps.foldl extendOne s).maps = s.maps ∧
    (ps.foldl extendOne s).templateParams = s.templateParams := by
  induction ps with
  | nil => intro s; exact ⟨rfl, rfl, rfl, rfl, rfl, rfl⟩
  | cons kv t ih =>
    intro s
    have h1 := extendOne_fields s kv
    have h2 := ih (extendOne s kv)
    rw [List.foldl_cons]
    exact ⟨h2.1.trans h1.1, h2.2.1.trans h1.2.1, h2.2.2.1.trans h1.2.2.1,
      h2.2.2.2.1.trans h1.2.2.2.1, h2.2.2.2.2.1.trans h1.2.2.2.2.1,
      h2.2.2.2.2.2.trans h1.2.2.2.2.2⟩

/-- Unfolding of one loop iteration when the key is still unknown. -/
theorem extendOne_eq_none (s : SpecState) (k : String) (pd : ParamData)
    (h : alookup s.params k = none) :
    extendOne s (k, pd) =
      addAliases
        { s with params := aset s.params k s.heap.length
                 heap := (s.heap ++ [getDefaultParameterSpec k]).set s.heap.length
                   (extendObject (getDefaultParameterSpec k) pd) }
        s.heap.length (extendObject (getDefaultParameterSpec k) pd).aliases := by
  have hred : readHeap
      { s with params := aset s.params k s.heap.length
               heap := s.heap ++ [getDefaultParameterSpec k] } s.heap.length =
      getDefaultParameterSpec k := by
    unfold readHeap
    exact getD_concat _ _ _
  simp only [extendOne, h, if_pos, alookup_aset_self, Option.getD_some, hred]

/-- Unfolding of one loop iteration when the key is already present:
the existing (possibly shared) object is merged in place. -/
theorem extendOne_eq_some (s : SpecState) (k : String) (pd : ParamData)
    (r0 : Ref) (h : alookup s.params k = some r0) :
    extendOne s (k, pd) =
      addAliases { s with heap := s.heap.set r0 (extendObject (readHeap s r0) pd) }
        r0 (extendObject (readHeap s r0) pd).aliases := by
  simp only [extendOne, h, Option.getD_some]
  rw [if_neg (by simp)]
  rw [h]
  rfl

/-- The observable net effect of one loop iteration on its own key: the
key (and every alias of the merged object) ends up referencing one
shared cell whose contents are the merge of the pre-existing or default
spec with the payload. -/
theorem extendOne_core (s : SpecState) (k : String) (pd : ParamData)
    (href : ∀ kv ∈ s.params, kv.2 < s.heap.length) :
    ∃ r, alookup (extendOne s (k, pd)).params k = some r ∧
      readHeap (extendOne s (k, pd)) r = extendObject (extendBase s k) pd ∧
      (∀ a ∈ (extendObject (extendBase s k) pd).aliases,
        alookup (extendOne s (k, pd)).params a = some r) := by
  cases h : alookup s.params k with
  | none =>
    have hbase : extendBase s k = getDefaultParameterSpec k := by
      unfold extendBase
      rw [h]
    refine ⟨s.heap.length, ?_, ?_, ?_⟩
    · rw [extendOne_eq_none s k pd h]
      exact alookup_addAliases _ _ _ k (Or.inr (alookup_aset_self _ _ _))
    · rw [extendOne_eq_none s k pd h]
      unfold readHeap
      rw [(addAliases_fields _ _ _).1, hbase]
      exact getD_set_self _ _ _ _ (by simp)
    · intro a ha
      rw [extendOne_eq_none s k pd h]
      rw [hbase] at ha
      exact alookup_addAliases _ _ _ a (Or.inl ha)
  | some r0 =>
    have hr0 : r0 < s.heap.length := href (k, r0) (alookup_mem _ _ _ h)
    have hbase : extendBase s k = readHeap s r0 := by
      unfold extendBase
      rw [h]
    refine ⟨r0, ?_, ?_, ?_⟩
    · rw [extendOne_eq_some s k pd r0 h]
      exact alookup_addAliases _ _ _ k (Or.inr h)
    · rw [extendOne_eq_some s k pd r0 h]
      unfold readHeap
      rw [(addAliases_fields _ _ _).1, hbase]
      exact getD_set_self _ _ _ _ hr0
    · intro a ha
      rw [extendOne_eq_some s k pd r0 h]
      rw [hbase] at ha
      exact alookup_addAliases _ _ _ a (Or.inl ha)

theorem extendBase_congr (s t : SpecState) (k : String)
    (hps : s.params = t.params) (hh : s.heap = t.heap) :
    extendBase s k = extendBase t k := by
  unfold extendBase readHeap
  rw [hps, hh]

theorem extend_params_eq (st : SpecState) (d : SpecData) :
    (extend st d).params = (paramsStep (descStep st d) d).params := by
  unfold extend
  rw [(mapsStep_fields _ _).1]
  rfl

theorem extend_heap_eq (st : SpecState) (d : SpecData) :
    (extend st d).heap = (paramsStep (descStep st d) d).heap := by
  unfold extend
  rw [(mapsStep_fields _ _).2.1]
  rfl

theorem extendOne_core_of (s : SpecState) (k : String) (pd : ParamData)
    (t : SpecState) (hps : s.params = t.params) (hh : s.heap = t.heap)
    (hWF : WFState t) :
    ∃ r, alookup (extendOne s (k, pd)).params k = some r ∧
      readHeap (extendOne s (k, pd)) r = extendObject (extendBase t k) pd ∧
      (∀ a ∈ (extendObject (extendBase t k) pd).aliases,
        alookup (extendOne s (k, pd)).params a = some r) := by
  have href : ∀ kv ∈ s.params, kv.2 < s.heap.length := by
    rw [hps, hh]
    exact hWF.2.1
  have hbase : extendBase s k = extendBase t k := extendBase_congr s t k hps hh
  obtain ⟨r, h1, h2, h3⟩ := extendOne_core s k pd href
  refine ⟨r, h1, ?_, ?_⟩
  · rw [← hbase]
    exact h2
  · intro a ha
    rw [← hbase] at ha
    exact h3 a ha

/-- Net effect of extend on the single parameter of a one-entry params
payload: the key and all aliases of the merged object share one cell
holding the merge of the previous (or default) spec with the payload. -/
theorem extend_singleton_core (st : SpecState) (d : SpecData) (k : String)
    (pd : ParamData) (hWF : WFState st) (hp : d.params = some [(k, pd)]) :
    ∃ r, alookup (extend st d).params k = some r ∧
      readHeap (extend st d) r = extendObject (extendBase st k) pd ∧
      (∀ a ∈ (extendObject (extendBase st k) pd).aliases,
        alookup (extend st d).params a = some r) := by
  have hparams : paramsStep (descStep st d) d = extendOne
      { descStep st d with
        canonicalOrderRef := (descStep st d).arrays.length
        arrays := (descStep st d).arrays ++
          [match d.paramOrder with
            | some o => o
            | none => List.map Prod.fst [(k, pd)]] } (k, pd) := by
    simp only [paramsStep, hp]
    rfl
  obtain ⟨r, h1, h2, h3⟩ := extendOne_core_of
    { descStep st d with
      canonicalOrderRef := (descStep st d).arrays.length
      arrays := (descStep st d).arrays ++
        [match d.paramOrder with
          | some o => o
          | none => List.map Prod.fst [(k, pd)]] } k pd st
    ((descStep_fields st d).1) ((descStep_fields st d).2.1) hWF
  refine ⟨r, ?_, ?_, ?_⟩
  · rw [extend_params_eq, hparams]
    exact h1
  · unfold readHeap
    rw [extend_heap_eq, hparams]
    exact h2
  · intro a ha
    rw [extend_params_eq, hparams]
    exact h3 a ha

/-! ### canonical order lemmas -/

theorem extend_arrays_of_params (st : SpecState) (d : SpecData)
    (ps : List (String × ParamData)) (hp : d.params = some ps) :
    (extend st d).arrays = st.arrays ++
      [match d.paramOrder with | some o => o | none => ps.map Prod.fst] ∧
    (extend st d).canonicalOrderRef = st.arrays.length := by
  constructor
  · unfold extend
    rw [(mapsStep_fields _ _).2.2.1]
    show (paramsStep (descStep st d) d).arrays = _
    simp only [paramsStep, hp]
    rw [(foldl_extendOne_fields _ _).1]
    show (descStep st d).arrays ++ _ = _
    rw [(descStep_fields st d).2.2.1]
  · unfold extend
    rw [(mapsStep_fields _ _).2.2.2.1]
    show (paramsStep (descStep st d) d).canonicalOrderRef = _
    simp only [paramsStep, hp]
    rw [(foldl_extendOne_fields _ _).2.1]
    show (descStep st d).arrays.length = _
    rw [(descStep_fields st d).2.2.1]

theorem canonicalOrderList_extend (st : SpecState) (d : SpecData)
    (ps : List (String × ParamData)) (hp : d.params = some ps) :
    canonicalOrderList (extend st d) =
      (match d.paramOrder with | some o => o | none => ps.map Prod.fst) := by
  obtain ⟨ha, hr⟩ := extend_arrays_of_params st d ps hp
  unfold canonicalOrderList
  rw [ha, hr]
  exact getD_concat _ _ _

theorem readArr_getCanonical (st : SpecState) :
    readArr (getCanonicalParameterOrder st).1 (getCanonicalParameterOrder st).2 =
      canonicalOrderList st := by
  unfold readArr getCanonicalParameterOrder
  exact getD_concat _ _ _

/-! ### Concrete payloads used by counterexamples and witnesses -/

def pdLab1 : ParamData := { emptyParamData with label := some "L1" }

def pdLab2 : ParamData := { emptyParamData with label := some "L2" }

def dC1a : SpecData :=
  { emptyData with description := DescriptionData.str "a", params := some [("p", pdLab1)] }

def dC1b : SpecData :=
  { emptyData with description := DescriptionData.str "b", params := some [("p", pdLab2)] }

def pdC2b : ParamData := { emptyParamData with aliases := some ["x"] }

def pdC2c : ParamData := { emptyParamData with aliases := some ["b"], required := some true }

def dC2cex : SpecData := { emptyData with params := some [("b", pdC2b), ("c", pdC2c)] }

def stC2 : SpecState := extend (newSpecModel []) dC2cex

def pdAliasQ : ParamData := { emptyParamData with aliases := some ["q"] }

def dC2w : SpecData := { emptyData with params := some [("p", pdAliasQ)] }

def stC7 : SpecState := extend (newSpecModel []) dC2w

def dC4a : SpecData :=
  { emptyData with params := some [("p", emptyParamData), ("q", emptyParamData)] }

def dC4b : SpecData :=
  { emptyData with paramOrder := some ["z"], params := some [("p", emptyParamData)] }

def dC6 : SpecData :=
  { emptyData with description := DescriptionData.str "a", sets := some ["s1"] }

/-! ### Claim C1 -/

/-- C1 counterexample: the claimed field-level first-write-wins invariant
fails.  After extend sets the template description to a non-null value
and the label of parameter p to L1, a second extend with a non-null
description and a defined label changes both fields. -/
theorem C1_counterexample :
    getDescription (extend (newSpecModel []) dC1a) = some "a" ∧
    getDescription (extend (extend (newSpecModel []) dC1a) dC1b) = some "b" ∧
    getParameterLabel (extend (newSpecModel []) dC1a) "p" = some "L1" ∧
    getParameterLabel (extend (extend (newSpecModel []) dC1a) dC1b) "p" = some "L2" := by
  decide

/-- C1 (amended): extend applies the LAST write, not the first.  A later
extend overwrites the description whenever the payload description is
not null (an absent description clears it), replaces sets
unconditionally with the payload sets, and overwrites any parameter-spec
field the payload defines, exhibited here for the label of the single
parameter of a one-entry params payload. -/
theorem C1_theorem (st : SpecState) (d : SpecData) (k lab : String)
    (pd : ParamData) (hWF : WFState st) (hp : d.params = some [(k, pd)])
    (hl : pd.label = some lab) :
    (extend st d).description = (match d.description with
      | DescriptionData.null => st.description
      | DescriptionData.missing => none
      | DescriptionData.str s => some s) ∧
    (extend st d).sets = d.sets ∧
    (∃ r, alookup (extend st d).params k = some r ∧
      (readHeap (extend st d) r).label = lab) := by
  refine ⟨?_, ?_, ?_⟩
  · unfold extend
    rw [(mapsStep_fields _ _).2.2.2.2.2.1]
    show (paramsStep (descStep st d) d).description = _
    simp only [paramsStep, hp]
    rw [(foldl_extendOne_fields _ _).2.2.1]
    show (descStep st d).description = _
    exact descStep_description st d
  · unfold extend
    rw [(mapsStep_fields _ _).2.2.2.2.1]
    rfl
  · obtain ⟨r, h1, h2, _⟩ := extend_singleton_core st d k pd hWF hp
    refine ⟨r, h1, ?_⟩
    rw [h2]
    simp [extendObject, hl]

/-- C1 witness: the amended statement evaluated on a fresh model and a
payload carrying description a and a single parameter p with label L1. -/
theorem C1_witness :
    WFState (newSpecModel []) ∧
    ((extend (newSpecModel []) dC1a).description = some "a" ∧
      (extend (newSpecModel []) dC1a).sets = none ∧
      (∃ r, alookup (extend (newSpecModel []) dC1a).params "p" = some r ∧
        (readHeap (extend (newSpecModel []) dC1a) r).label = "L1")) :=
  ⟨by decide, C1_theorem (newSpecModel []) dC1a "p" "L1" pdLab1 (by decide) rfl rfl⟩

/-! ### Claim C2 -/

/-- C2 counterexample: alias resolution and primary-name queries can
disagree.  In a payload whose entry b declares alias x while entry c
re-declares b itself as an alias, x ends up an alias whose primary name
is b, yet the required flag queried via x differs from the one queried
via b, and the two names reference different entries. -/
theorem C2_counterexample :
    isParameterAlias stC2 "x" = true ∧
    getPrimaryParameterName stC2 "x" = some "b" ∧
    isParameterRequired stC2 "b" = some true ∧
    isParameterRequired stC2 "x" = some false ∧
    alookup stC2.params "x" ≠ alookup stC2.params "b" := by
  decide

/-- C2 (amended): for an extend whose params payload is the single entry
k declaring aliases, provided k is not currently an alias of another
parameter, every declared alias name references the identical shared
entry as k, the primary name resolves to k, and the flag queries agree
between alias and canonical name. -/
theorem C2_theorem (st : SpecState) (d : SpecData) (k a : String)
    (pd : ParamData) (as2 : List String) (hWF : WFState st)
    (hp : d.params = some [(k, pd)]) (has : pd.aliases = some as2)
    (ha : a ∈ as2)
    (hk : ∀ r0, alookup st.params k = some r0 → (readHeap st r0).name = k) :
    alookup (extend st d).params a = alookup (extend st d).params k ∧
    isKnownParameterOrAlias (extend st d) a = true ∧
    getPrimaryParameterName (extend st d) a = some k ∧
    isParameterRequired (extend st d) a = isParameterRequired (extend st d) k ∧
    isParameterDeprecated (extend st d) a = isParameterDeprecated (extend st d) k ∧
    getParameterAliases (extend st d) a = getParameterAliases (extend st d) k := by
  obtain ⟨r, h1, h2, h3⟩ := extend_singleton_core st d k pd hWF hp
  have hmem : a ∈ (extendObject (extendBase st k) pd).aliases := by
    simp only [extendObject, has, indexMerge]
    exact List.mem_append_left _ ha
  have haa : alookup (extend st d).params a = some r := h3 a hmem
  have hname : (extendBase st k).name = k := by
    unfold extendBase
    cases h0 : alookup st.params k with
    | none => rfl
    | some r0 => exact hk r0 h0
  refine ⟨?_, ?_, ?_, ?_, ?_, ?_⟩
  · rw [haa, h1]
  · unfold isKnownParameterOrAlias
    rw [haa]
    rfl
  · unfold getPrimaryParameterName
    rw [haa]
    simp only [Option.map_some']
    rw [h2]
    simp [extendObject, hname]
  · unfold isParameterRequired
    rw [haa, h1]
  · unfold isParameterDeprecated
    rw [haa, h1]
  · unfold getParameterAliases
    rw [haa, h1]

/-- C2 witness: the amended statement evaluated on a fresh model and a
payload whose single entry p declares the alias q. -/
theorem C2_witness :
    WFState (newSpecModel []) ∧
    (alookup (extend (newSpecModel []) dC2w).params "q" =
        alookup (extend (newSpecModel []) dC2w).params "p" ∧
      isKnownParameterOrAlias (extend (newSpecModel []) dC2w) "q" = true ∧
      getPrimaryParameterName (extend (newSpecModel []) dC2w) "q" = some "p" ∧
      isParameterRequired (extend (newSpecModel []) dC2w) "q" =
        isParameterRequired (extend (newSpecModel []) dC2w) "p" ∧
      isParameterDeprecated (extend (newSpecModel []) dC2w) "q" =
        isParameterDeprecated (extend (newSpecModel []) dC2w) "p" ∧
      getParameterAliases (extend (newSpecModel []) dC2w) "q" =
        getParameterAliases (extend (newSpecModel []) dC2w) "p") :=
  ⟨by decide, C2_theorem (newSpecModel []) dC2w "p" "q" pdAliasQ ["q"]
    (by decide) rfl rfl (by decide)
    (by
      intro r0 h
      rw [(by decide : alookup (newSpecModel []).params "p" = none)] at h
      exact Option.noConfusion h)⟩

/-! ### Claim C3 -/

/-- C3 counterexample: the empty-string key is a key of the observed
invocation parameters, yet fillFromTemplate (run by the constructor)
skips it because of the truthiness guard, so no specification entry
exists for it. -/
theorem C3_counterexample :
    "" ∈ (newSpecModel [""]).templateParams ∧
    isKnownParameterOrAlias (newSpecModel [""]) "" = false := by
  decide

/-- C3 (amended): for every NON-EMPTY parameter name observed in the
live template invocation, a specification entry exists after
fillFromTemplate, and likewise after the constructor (which calls
fillFromTemplate). -/
theorem C3_theorem (st : SpecState) (k : String) (hk : k ∈ st.templateParams)
    (hne : k ≠ "") :
    isKnownParameterOrAlias (fillFromTemplate st) k = true ∧
    isKnownParameterOrAlias (newSpecModel st.templateParams) k = true := by
  constructor
  · exact foldl_fillOne_present st.templateParams st k hk hne
  · exact foldl_fillOne_present st.templateParams _ k hk hne

/-- C3 witness: the amended statement evaluated on a model observing the
single parameter name a. -/
theorem C3_witness :
    "a" ∈ (newSpecModel ["a"]).templateParams ∧ "a" ≠ "" ∧
    (isKnownParameterOrAlias (fillFromTemplate (newSpecModel ["a"])) "a" = true ∧
      isKnownParameterOrAlias (newSpecModel (newSpecModel ["a"]).templateParams) "a" = true) :=
  ⟨by decide, by decide, C3_theorem (newSpecModel ["a"]) "a" (by decide) (by decide)⟩

/-! ### Claim C4 -/

/-- C4: after an extend carrying a params object, the canonical
parameter order returned by getCanonicalParameterOrder is the explicit
paramOrder list when one was given, and otherwise the key order of the
params object. -/
theorem C4_theorem (st : SpecState) (d : SpecData)
    (ps : List (String × ParamData)) (hp : d.params = some ps) :
    readArr (getCanonicalParameterOrder (extend st d)).1
        (getCanonicalParameterOrder (extend st d)).2 =
      (match d.paramOrder with | some o => o | none => ps.map Prod.fst) := by
  rw [readArr_getCanonical]
  exact canonicalOrderList_extend st d ps hp

/-- C4 witness: the order is the key order p, q when no paramOrder is
given, and the explicit list z when one is. -/
theorem C4_witness :
    dC4a.params = some [("p", emptyParamData), ("q", emptyParamData)] ∧
    dC4b.params = some [("p", emptyParamData)] ∧
    readArr (getCanonicalParameterOrder (extend (newSpecModel []) dC4a)).1
      (getCanonicalParameterOrder (extend (newSpecModel []) dC4a)).2 = ["p", "q"] ∧
    readArr (getCanonicalParameterOrder (extend (newSpecModel []) dC4b)).1
      (getCanonicalParameterOrder (extend (newSpecModel []) dC4b)).2 = ["z"] :=
  ⟨rfl, rfl, C4_theorem (newSpecModel []) dC4a [("p", emptyParamData), ("q", emptyParamData)] rfl,
    C4_theorem (newSpecModel []) dC4b [("p", emptyParamData)] rfl⟩

/-! ### Claim C5 -/

/-- C5: fillFromTemplate is idempotent and never overwrites an existing
specification entry: an entry reference present before the call is still
present and unchanged afterwards, and the heap cell it references holds
the same spec object. -/
theorem C5_theorem (st : SpecState) (n : String) (r : Ref) (hWF : WFState st) :
    fillFromTemplate (fillFromTemplate st) = fillFromTemplate st ∧
    (alookup st.params n = some r →
      alookup (fillFromTemplate st).params n = some r ∧
      readHeap (fillFromTemplate st) r = readHeap st r) := by
  constructor
  · unfold fillFromTemplate
    rw [foldl_fillOne_templateParams st.templateParams st]
    apply foldl_fillOne_id
    intro k hk
    by_cases hke : k = ""
    · exact Or.inl hke
    · exact Or.inr (foldl_fillOne_present st.templateParams st k hk hke)
  · intro h
    refine ⟨foldl_fillOne_lookup_mono st.templateParams st n r h, ?_⟩
    have hr : r < st.heap.length := hWF.2.1 (n, r) (alookup_mem _ _ _ h)
    unfold readHeap fillFromTemplate
    exact foldl_fillOne_heap_getD st.templateParams st r _ hr

/-- C5 witness: the statement evaluated on a model observing a, with the
entry for a (reference 0) preserved across a repeated fill. -/
theorem C5_witness :
    WFState (newSpecModel ["a"]) ∧
    alookup (newSpecModel ["a"]).params "a" = some 0 ∧
    fillFromTemplate (fillFromTemplate (newSpecModel ["a"])) =
      fillFromTemplate (newSpecModel ["a"]) ∧
    (alookup (fillFromTemplate (newSpecModel ["a"])).params "a" = some 0 ∧
      readHeap (fillFromTemplate (newSpecModel ["a"])) 0 = readHeap (newSpecModel ["a"]) 0) :=
  ⟨by decide, by decide, (C5_theorem (newSpecModel ["a"]) "a" 0 (by decide)).1,
    (C5_theorem (newSpecModel ["a"]) "a" 0 (by decide)).2 (by decide)⟩

/-! ### Claim C6 -/

/-- C6 counterexample: missing fields are NOT all treated as absent.
After a payload sets the description and the sets list, a second extend
with an entirely empty payload clears both. -/
theorem C6_counterexample :
    getDescription (extend (newSpecModel []) dC6) = some "a" ∧
    getParameterSets (extend (newSpecModel []) dC6) = ["s1"] ∧
    getDescription (extend (extend (newSpecModel []) dC6) emptyData) = none ∧
    getParameterSets (extend (extend (newSpecModel []) dC6) emptyData) = [] := by
  decide

/-- C6 (amended): extend completes on every payload shape (it is a total
function of the payload), and a payload with all documented fields
missing leaves the parameter specs, canonical order and maps untouched
while clearing the stored description and sets, regardless of any
paramOrder value. -/
theorem C6_theorem (st : SpecState) (d : SpecData)
    (h1 : d.description = DescriptionData.missing) (h2 : d.params = none)
    (h3 : d.sets = none) (h4 : d.maps = none) :
    extend st d = { st with description := none, sets := none } := by
  obtain ⟨ddesc, dpo, dparams, dsets, dmaps⟩ := d
  have e1 : ddesc = DescriptionData.missing := h1
  have e2 : dparams = none := h2
  have e3 : dsets = none := h3
  have e4 : dmaps = none := h4
  subst e1
  subst e2
  subst e3
  subst e4
  rfl

/-- C6 witness: the empty payload applied to a model observing a. -/
theorem C6_witness :
    emptyData.description = DescriptionData.missing ∧
    emptyData.params = none ∧ emptyData.sets = none ∧ emptyData.maps = none ∧
    extend (newSpecModel ["a"]) emptyData =
      { newSpecModel ["a"] with description := none, sets := none } :=
  ⟨rfl, rfl, rfl, rfl, C6_theorem (newSpecModel ["a"]) emptyData rfl rfl rfl rfl⟩

/-! ### Claim C7 -/

/-- C7: getParameterNames returns exactly the primary names: every
member resolves to itself as primary and is not an alias, alias names
never appear, and every known non-alias name appears exactly once. -/
theorem C7_theorem (st : SpecState) (n : String) (hWF : WFState st) :
    (n ∈ getParameterNames st →
      getPrimaryParameterName st n = some n ∧ isParameterAlias st n = false) ∧
    (isParameterAlias st n = true → n ∉ getParameterNames st) ∧
    (isKnownParameterOrAlias st n = true → isParameterAlias st n = false →
      (getParameterNames st).count n = 1) := by
  refine ⟨?_, ?_, ?_⟩
  · intro hn
    have hp := (List.mem_filter.mp hn).2
    cases h : alookup st.params n with
    | none =>
      rw [h] at hp
      simp at hp
    | some r =>
      rw [h] at hp
      have hname : (readHeap st r).name = n := of_decide_eq_true hp
      constructor
      · unfold getPrimaryParameterName
        rw [h]
        simp [hname]
      · unfold isParameterAlias
        rw [h]
        simp [hname]
  · intro hal hmem
    unfold isParameterAlias at hal
    cases h : alookup st.params n with
    | none =>
      rw [h] at hal
      simp at hal
    | some r =>
      rw [h] at hal
      have hne : (readHeap st r).name ≠ n := of_decide_eq_true hal
      have hp := (List.mem_filter.mp hmem).2
      rw [h] at hp
      exact hne (of_decide_eq_true hp)
  · intro hknown hal
    unfold isKnownParameterOrAlias at hknown
    obtain ⟨r, h⟩ := Option.isSome_iff_exists.mp hknown
    unfold isParameterAlias at hal
    rw [h] at hal
    have hname : (readHeap st r).name = n := by
      have := of_decide_eq_false hal
      exact not_not.mp (by simpa using this)
    have hp : (fun m => match alookup st.params m with
        | some r2 => decide ((readHeap st r2).name = m)
        | none => false) n = true := by
      show (match alookup st.params n with
        | some r2 => decide ((readHeap st r2).name = n)
        | none => false) = true
      rw [h]
      exact decide_eq_true hname
    unfold getParameterNames
    exact (@List.count_filter String _ _
      (fun m => match alookup st.params m with
        | some r2 => decide ((readHeap st r2).name = m)
        | none => false) n (st.params.map Prod.fst) hp).trans
      (List.count_eq_one_of_mem hWF.1 (mem_keys_of_alookup _ _ _ h))

/-- C7 witness: the statement evaluated at the primary name p of a model
whose documentation declares p with alias q. -/
theorem C7_witness :
    WFState stC7 ∧
    (("p" ∈ getParameterNames stC7 →
        getPrimaryParameterName stC7 "p" = some "p" ∧
        isParameterAlias stC7 "p" = false) ∧
      (isParameterAlias stC7 "p" = true → "p" ∉ getParameterNames stC7) ∧
      (isKnownParameterOrAlias stC7 "p" = true → isParameterAlias stC7 "p" = false →
        (getParameterNames stC7).count "p" = 1)) :=
  ⟨by decide, C7_theorem stC7 "p" (by decide)⟩

/-! ### Claim C8 -/

/-- C8: getCanonicalParameterOrder returns a fresh copy of the stored
canonical order: the copy has the same contents, is a different array
object than the one the model holds, writing to the returned object
leaves the model's canonical order unchanged, and two successive calls
return equal lists. -/
theorem C8_theorem (st : SpecState) (v : List String) (hWF : WFState st) :
    readArr (getCanonicalParameterOrder st).1 (getCanonicalParameterOrder st).2 =
      canonicalOrderList st ∧
    (getCanonicalParameterOrder st).2 ≠ st.canonicalOrderRef ∧
    canonicalOrderList
        (writeArr (getCanonicalParameterOrder st).1 (getCanonicalParameterOrder st).2 v) =
      canonicalOrderList st ∧
    readArr (getCanonicalParameterOrder (getCanonicalParameterOrder st).1).1
        (getCanonicalParameterOrder (getCanonicalParameterOrder st).1).2 =
      readArr (getCanonicalParameterOrder st).1 (getCanonicalParameterOrder st).2 := by
  have hlt : st.canonicalOrderRef < st.arrays.length := hWF.2.2
  refine ⟨readArr_getCanonical st, ?_, ?_, ?_⟩
  · show st.arrays.length ≠ st.canonicalOrderRef
    exact ne_of_gt hlt
  · show ((st.arrays ++ [canonicalOrderList st]).set st.arrays.length v).getD
        st.canonicalOrderRef [] = canonicalOrderList st
    rw [getD_set_ne _ _ _ _ _ (ne_of_gt hlt)]
    unfold canonicalOrderList
    exact List.getD_append _ _ _ _ hlt
  · rw [readArr_getCanonical, readArr_getCanonical]
    show (st.arrays ++ [canonicalOrderList st]).getD st.canonicalOrderRef [] =
      canonicalOrderList st
    unfold canonicalOrderList
    exact List.getD_append _ _ _ _ hlt

/-- C8 witness: the statement evaluated on a model observing a, with an
arbitrary overwrite of the returned copy. -/
theorem C8_witness :
    WFState (newSpecModel ["a"]) ∧
    (readArr (getCanonicalParameterOrder (newSpecModel ["a"])).1
        (getCanonicalParameterOrder (newSpecModel ["a"])).2 =
      canonicalOrderList (newSpecModel ["a"]) ∧
    (getCanonicalParameterOrder (newSpecModel ["a"])).2 ≠
      (newSpecModel ["a"]).canonicalOrderRef ∧
    canonicalOrderList
        (writeArr (getCanonicalParameterOrder (newSpecModel ["a"])).1
          (getCanonicalParameterOrder (newSpecModel ["a"])).2 ["zz"]) =
      canonicalOrderList (newSpecModel ["a"]) ∧
    readArr (getCanonicalParameterOrder (getCanonicalParameterOrder (newSpecModel ["a"])).1).1
        (getCanonicalParameterOrder (getCanonicalParameterOrder (newSpecModel ["a"])).1).2 =
      readArr (getCanonicalParameterOrder (newSpecModel ["a"])).1
        (getCanonicalParameterOrder (newSpecModel ["a"])).2) :=
  ⟨by decide, C8_theorem (newSpecModel ["a"]) ["zz"] (by decide)⟩

/-! ### Claim C9 -/

/-- C9: getParameterDefaultValue and getParameterAutoValue are total
over all parameter names: for an unknown name they return the empty
string instead of failing, and for a known name they return the stored
default and autovalue fields of the referenced entry. -/
theorem C9_theorem (st : SpecState) (n : String) (r : Ref) :
    (isKnownParameterOrAlias st n = false →
      getParameterDefaultValue st n = "" ∧ getParameterAutoValue st n = some "") ∧
    (alookup st.params n = some r →
      getParameterDefaultValue st n = (readHeap st r).default ∧
      getParameterAutoValue st n = (readHeap st r).autovalue) := by
  constructor
  · intro h
    unfold isKnownParameterOrAlias at h
    have hn : alookup st.params n = none := by
      cases hc : alookup st.params n with
      | none => rfl
      | some r2 =>
        rw [hc] at h
        simp at h
    unfold getParameterDefaultValue getParameterAutoValue
    rw [hn]
    exact ⟨rfl, rfl⟩
  · intro h
    unfold getParameterDefaultValue getParameterAutoValue
    rw [h]
    exact ⟨rfl, rfl⟩

/-- C9 witness: both cases evaluated on a model observing a: the unknown
name zz yields empty strings, the known name a yields the stored
fields of entry 0. -/
theorem C9_witness :
    (isKnownParameterOrAlias (newSpecModel ["a"]) "zz" = false ∧
      (getParameterDefaultValue (newSpecModel ["a"]) "zz" = "" ∧
        getParameterAutoValue (newSpecModel ["a"]) "zz" = some "")) ∧
    (alookup (newSpecModel ["a"]).params "a" = some 0 ∧
      (getParameterDefaultValue (newSpecModel ["a"]) "a" =
          (readHeap (newSpecModel ["a"]) 0).default ∧
        getParameterAutoValue (newSpecModel ["a"]) "a" =
          (readHeap (newSpecModel ["a"]) 0).autovalue)) :=
  ⟨⟨by decide, (C9_theorem (newSpecModel ["a"]) "zz" 0).1 (by decide)⟩,
    ⟨by decide, (C9_theorem (newSpecModel ["a"]) "a" 0).2 (by decide)⟩⟩

end VeDm
